import Mathlib

/-!
Verification of `convert_mixcr_to_csv.py`: a shallow embedding of the script's
data flow (pandas tables, per-file top-clone extraction, aggregation, CSV
output) together with theorems settling the specification's claims.
-/

namespace MixcrConvert

/-- A scalar cell value of a parsed table (a pandas object or number). -/
inductive Val
  | str (s : String)
  | num (n : Int)
deriving DecidableEq

/-- A table cell; `none` models a missing value (pandas `NaN` / `pd.NA`). -/
abbrev Cell := Option Val

/-- A parsed tab-separated table (`pd.read_csv(file, sep='\t')`): the header
row of column names and the data rows, each row aligned with the header. -/
structure Table where
  header : List String
  rows : List (List Cell)
deriving DecidableEq

/-- Column membership, `col in df.columns`. -/
def Table.hasCol (t : Table) (c : String) : Bool := t.header.contains c

/-- The values of column `c` (callers check `hasCol` first; an absent column
reads as all-missing here, and `getCellE` below models the `KeyError`). -/
def Table.getColD (t : Table) (c : String) : List Cell :=
  t.rows.map (fun r => r.getD (t.header.indexOf c) none)

/-- `df.empty`: true when either axis has length zero. -/
def Table.isEmpty (t : Table) : Bool := t.rows.isEmpty || t.header.isEmpty

/-- Number of data rows, `len(df)`. -/
def Table.nrows (t : Table) : Nat := t.rows.length

/-- Elementwise `+` on cells as pandas evaluates it: a missing operand
propagates to a missing result (`NaN + x = NaN`), numbers add, and strings
concatenate.  A mixed string/number addition raises in pandas; it is modelled
as missing and is unreachable in every theorem below (which assume or supply
numeric read-count columns). -/
def addCell : Cell → Cell → Cell
  | some (.num a), some (.num b) => some (.num (a + b))
  | some (.str a), some (.str b) => some (.str (a ++ b))
  | _, _ => none

/-- Elementwise column addition, `df[a] + df[b]`. -/
def addCols (a b : List Cell) : List Cell := List.zipWith addCell a b

/-- Numeric content of a cell, used only to compare defined ranking values. -/
def cellNum : Cell → Int
  | some (.num n) => n
  | _ => 0

/-- The ranking value at row index `i` of a ranking column. -/
def rankAt (vals : List Cell) (i : Nat) : Int := cellNum (vals.getD i none)

/-- Comparison of two row indices by their ranking value. -/
def rankLe (vals : List Cell) (i j : Nat) : Prop := rankAt vals i ≤ rankAt vals j

instance (vals : List Cell) : DecidableRel (rankLe vals) :=
  fun i j => inferInstanceAs (Decidable (rankAt vals i ≤ rankAt vals j))

instance (vals : List Cell) : IsTotal Nat (rankLe vals) :=
  ⟨fun a b => le_total (rankAt vals a) (rankAt vals b)⟩

instance (vals : List Cell) : IsTrans Nat (rankLe vals) :=
  ⟨fun _ _ _ hab hbc => le_trans hab hbc⟩

/-- Row indices holding a defined (non-missing) value, in original order. -/
def definedIdx (vals : List Cell) : List Nat :=
  (List.range vals.length).filter (fun i => (vals.getD i none).isSome)

/-- Row indices holding a missing value, in original order. -/
def missingIdx (vals : List Cell) : List Nat :=
  (List.range vals.length).filter (fun i => (vals.getD i none).isNone)

/-- pandas `nargsort(vals, kind='quicksort', ascending=False,
na_position='last')`, the index order produced by
`df.sort_values(by=col, ascending=False)`: for descending order pandas
reverses the non-missing values and their indices, runs a stable ascending
argsort, and reverses the resulting indexer again, then appends the indices of
missing values in original order.  The double reversal around a stable sort
preserves the original relative order of tied values (first row first).
Sorting the reversed index list stably by value is exactly
`non_nan_idx[::-1][argsort(non_nans[::-1])]`; numpy's introsort runs plain
insertion sort — stable — on small arrays, and the stable argsort is the
behavior modelled here. -/
def argsortDescNaLast (vals : List Cell) : List Nat :=
  (List.insertionSort (rankLe vals) (definedIdx vals).reverse).reverse ++ missingIdx vals

/-- Index of the selected top clone: `sort_values(...).head(1)`, i.e. the
first position of the descending sort order. -/
def topCloneIdx (vals : List Cell) : Nat := (argsortDescNaLast vals).headD 0

/-- The derived ranking column,
`df['TRA.primary.readCount'] + df['TRB.primary.readCount']`. -/
def Table.rank (t : Table) : List Cell :=
  addCols (t.getColD "TRA.primary.readCount") (t.getColD "TRB.primary.readCount")

/-- The selected row index of a table passing the per-file checks. -/
def Table.topIdx (t : Table) : Nat := topCloneIdx t.rank

/-- The fixed pattern stripped from the front of a file name. -/
def preChars : List Char := "results.".data

/-- The fixed pattern stripped from the back of a file name. -/
def sfxChars : List Char := ".clone.groups_TRAB.tsv".data

/-- Scanner for `removeAll` below: in state `0` it drops the pattern whenever
the pattern starts at the current position, otherwise copies one character; a
state `k + 1` finishes dropping `k + 1` already-matched characters. -/
def removeAllAux (pat : List Char) : Nat → List Char → List Char
  | _, [] => []
  | k + 1, _ :: cs => removeAllAux pat k cs
  | 0, c :: cs =>
    if pat.isPrefixOf (c :: cs) then removeAllAux pat (pat.length - 1) cs
    else c :: removeAllAux pat 0 cs

/-- Python `s.replace(pat, '')`: remove every leftmost non-overlapping
occurrence of `pat` anywhere in `s` (not only a leading or trailing one). -/
def removeAll (pat s : List Char) : List Char :=
  match pat with
  | [] => s
  | _ :: _ => removeAllAux pat 0 s

/-- `os.path.basename(f).replace("results.", "").replace(".clone.groups_TRAB.tsv", "")`:
the sample identifier derived from a file name. -/
def stripSampleId (name : String) : String :=
  ⟨removeAll sfxChars (removeAll preChars name.data)⟩

/-- `glob.glob(os.path.join(dir, "results.*.clone.groups_TRAB.tsv"))` applied
to one base name: the name starts with `results.`, ends with
`.clone.groups_TRAB.tsv`, and is long enough that the two fixed parts do not
overlap (`*` matches any, possibly empty, character sequence of a base name). -/
def globMatch (name : String) : Bool :=
  preChars.isPrefixOf name.data && sfxChars.isSuffixOf name.data &&
    decide (30 ≤ name.data.length)

/-- The fixed 14-field output record (one row of `mixcr_summary.csv`). -/
structure Record where
  well : String
  numTotalReads : Cell
  abundance : Cell
  cdr3nt : Cell
  cdr3aa : Cell
  vGene : Cell
  dGene : Cell
  jGene : Cell
  abundance1 : Cell
  cdr3nt1 : Cell
  cdr3aa1 : Cell
  vGene1 : Cell
  dGene1 : Cell
  jGene1 : Cell
deriving DecidableEq

/-- The ways a run stops without writing `mixcr_summary.csv`: the two fatal
`exit(1)` checkpoints and an uncaught `KeyError` from column extraction. -/
inductive RunError
  | noFiles (msg : String)
  | noData (msg : String)
  | keyError (col : String)
deriving DecidableEq

/-- Process exit status on each error path (Python `exit(1)`, and the
interpreter exits with status 1 on an uncaught exception). -/
def exitCode : RunError → Nat := fun _ => 1

/-- `df['groupReadCount'].sum()`: pandas sums with `skipna=True`, so missing
cells are skipped and an empty column sums to zero. -/
def colSum (cells : List Cell) : Int :=
  cells.foldl (fun acc c => match c with | some (.num n) => acc + n | _ => acc) 0

/-- `df['groupReadCount'].sum() if 'groupReadCount' in df.columns else pd.NA`,
computed for every parsed table before the empty-table and required-column
checks. -/
def Table.totalReads (t : Table) : Cell :=
  if t.hasCol "groupReadCount" then some (.num (colSum (t.getColD "groupReadCount")))
  else none

/-- `top_clone[c].iloc[0]`: reading column `c` of the selected row raises
`KeyError` when the column is absent; otherwise it yields the cell. -/
def Table.getCellE (t : Table) (i : Nat) (c : String) : Except RunError Cell :=
  if t.hasCol c then .ok ((t.getColD c).getD i none) else .error (.keyError c)

/-- `x if pd.notna(x) else pd.NA`: the identity on cells, written as in the
source. -/
def keepIfPresent (c : Cell) : Cell := if c.isSome then c else none

/-- The two columns checked before ranking. -/
def requiredColumns : List String := ["TRA.primary.readCount", "TRB.primary.readCount"]

/-- The per-file loop body: compute the sample id and total reads, skip the
file (`.ok none`) when the table is empty or a required column is absent,
otherwise select the top clone and extract the 12 chain-specific fields in
source order; a missing extraction column propagates as a `KeyError`. -/
def processFile (name : String) (t : Table) : Except RunError (Option Record) :=
  let sampleId := stripSampleId name
  let total := t.totalReads
  if t.isEmpty then .ok none
  else if ! requiredColumns.all t.hasCol then .ok none
  else
    let sel := t.topIdx
    do
      let a1 ← t.getCellE sel "TRA.primary.readCount"
      let a2 ← t.getCellE sel "TRA.primary.nSeqCDR3"
      let a3 ← t.getCellE sel "TRA.primary.aaSeqCDR3"
      let a4 ← t.getCellE sel "TRA.primary.bestVHit"
      let a5 ← t.getCellE sel "TRA.primary.bestDHit"
      let a6 ← t.getCellE sel "TRA.primary.bestJHit"
      let b1 ← t.getCellE sel "TRB.primary.readCount"
      let b2 ← t.getCellE sel "TRB.primary.nSeqCDR3"
      let b3 ← t.getCellE sel "TRB.primary.aaSeqCDR3"
      let b4 ← t.getCellE sel "TRB.primary.bestVHit"
      let b5 ← t.getCellE sel "TRB.primary.bestDHit"
      let b6 ← t.getCellE sel "TRB.primary.bestJHit"
      .ok (some
        { well := sampleId, numTotalReads := total
          abundance := keepIfPresent a1, cdr3nt := keepIfPresent a2
          cdr3aa := keepIfPresent a3, vGene := keepIfPresent a4
          dGene := keepIfPresent a5, jGene := keepIfPresent a6
          abundance1 := keepIfPresent b1, cdr3nt1 := keepIfPresent b2
          cdr3aa1 := keepIfPresent b3, vGene1 := keepIfPresent b4
          dGene1 := keepIfPresent b5, jGene1 := keepIfPresent b6 })

/-- One directory entry: a base name together with the parse outcome of the
file's contents (`none` models a `pd.read_csv` failure, which the loop logs
and skips). -/
abbrev Entry := String × Option Table

/-- The files matched by the glob pattern, in discovery order. -/
def discover (entries : List Entry) : List Entry :=
  entries.filter (fun e => globMatch e.1)

/-- The per-file loop over the discovered files: parse failures and check
failures skip the file, an extraction `KeyError` aborts the whole run. -/
def collectRecords : List Entry → Except RunError (List Record)
  | [] => .ok []
  | (_, none) :: rest => collectRecords rest
  | (n, some t) :: rest =>
    match processFile n t with
    | .error e => .error e
    | .ok none => collectRecords rest
    | .ok (some r) => (collectRecords rest).map (fun rs => r :: rs)

/-- Ordering of output records by the `Well` field (ordinary string order). -/
def wellLe (a b : Record) : Prop := a.well ≤ b.well

instance : DecidableRel wellLe :=
  fun a b => inferInstanceAs (Decidable (a.well ≤ b.well))

instance : IsTotal Record wellLe := ⟨fun a b => le_total a.well b.well⟩

instance : IsTrans Record wellLe := ⟨fun _ _ _ hab hbc => le_trans hab hbc⟩

/-- `df.sort_values(by='Well')`. -/
def sortRecords (rs : List Record) : List Record := List.insertionSort wellLe rs

/-- The fatal message when the glob matches no file (includes the directory). -/
def msgNoFiles (dirPath : String) : String :=
  "No clone.groups_TRAB.tsv files found in " ++ dirPath

/-- The fatal message when no record was produced after the per-file loop. -/
def msgNoData : String :=
  "No data processed. Check if files are empty or lack required columns."

/-- The whole run on one directory: discovery, the two fatal checkpoints, the
per-file loop, and the final sort. -/
def runOutcome (dirPath : String) (entries : List Entry) :
    Except RunError (List Record) :=
  let files := discover entries
  if files.isEmpty then .error (.noFiles (msgNoFiles dirPath))
  else
    match collectRecords files with
    | .error e => .error e
    | .ok [] => .error (.noData msgNoData)
    | .ok rs => .ok (sortRecords rs)

/-- The fixed output header, `columns = [...]` of the source. -/
def outputColumns : List String :=
  ["Well", "Num_Total_Reads",
   "Abundance", "CDR3_nt_sequence", "CDR3_aa_sequence", "V_Gene", "D_Gene", "J_Gene",
   "Abundance.1", "CDR3_nt_sequence.1", "CDR3_aa_sequence.1", "V_Gene.1", "D_Gene.1",
   "J_Gene.1"]

/-- CSV serialization of one cell: a missing value renders as an empty field. -/
def serializeCell : Cell → String
  | none => ""
  | some (.str s) => s
  | some (.num n) => toString n

/-- One output row in the fixed column order. -/
def recordFields (r : Record) : List String :=
  [r.well, serializeCell r.numTotalReads,
   serializeCell r.abundance, serializeCell r.cdr3nt, serializeCell r.cdr3aa,
   serializeCell r.vGene, serializeCell r.dGene, serializeCell r.jGene,
   serializeCell r.abundance1, serializeCell r.cdr3nt1, serializeCell r.cdr3aa1,
   serializeCell r.vGene1, serializeCell r.dGene1, serializeCell r.jGene1]

/-- Newline-terminated lines of text, as `to_csv` emits them. -/
def renderLines : List String → String
  | [] => ""
  | l :: ls => l ++ "\n" ++ renderLines ls

/-- `df.to_csv(..., index=False)`: the header line then one line per record. -/
def renderCsv (rs : List Record) : String :=
  renderLines (String.intercalate "," outputColumns ::
    rs.map (fun r => String.intercalate "," (recordFields r)))

/-- The file contents written, if any: an error path writes no output file. -/
def writtenCsv (res : Except RunError (List Record)) : Option String :=
  match res with
  | .error _ => none
  | .ok rs => some (renderCsv rs)

/-- The run as a map from a directory to the optional bytes of
`mixcr_summary.csv`. -/
def runCsv (dirPath : String) (entries : List Entry) : Option String :=
  writtenCsv (runOutcome dirPath entries)

/-- Occurrence scanner: does `pat` start at some position of `s`? -/
def hasOcc (pat : List Char) : List Char → Bool
  | [] => pat.isEmpty
  | c :: cs => pat.isPrefixOf (c :: cs) || hasOcc pat cs

/-- The index of the last occurrence of the maximum ranking value in a list of
row indices; this is where a reversed stable ascending sort starts. -/
def lastMaxIdx (vals : List Cell) : List Nat → Option Nat
  | [] => none
  | i :: is =>
    match lastMaxIdx vals is with
    | none => some i
    | some j => if rankAt vals i ≤ rankAt vals j then some j else some i

/-- The twelve columns read from the selected row, in extraction order. -/
def extractionColumns : List String :=
  ["TRA.primary.readCount", "TRA.primary.nSeqCDR3", "TRA.primary.aaSeqCDR3",
   "TRA.primary.bestVHit", "TRA.primary.bestDHit", "TRA.primary.bestJHit",
   "TRB.primary.readCount", "TRB.primary.nSeqCDR3", "TRB.primary.aaSeqCDR3",
   "TRB.primary.bestVHit", "TRB.primary.bestDHit", "TRB.primary.bestJHit"]

/-- The record `processFile` produces for a table that passes both checks and
has every extraction column. -/
def extractRecord (name : String) (t : Table) : Record :=
  { well := stripSampleId name
    numTotalReads := t.totalReads
    abundance := keepIfPresent ((t.getColD "TRA.primary.readCount").getD t.topIdx none)
    cdr3nt := keepIfPresent ((t.getColD "TRA.primary.nSeqCDR3").getD t.topIdx none)
    cdr3aa := keepIfPresent ((t.getColD "TRA.primary.aaSeqCDR3").getD t.topIdx none)
    vGene := keepIfPresent ((t.getColD "TRA.primary.bestVHit").getD t.topIdx none)
    dGene := keepIfPresent ((t.getColD "TRA.primary.bestDHit").getD t.topIdx none)
    jGene := keepIfPresent ((t.getColD "TRA.primary.bestJHit").getD t.topIdx none)
    abundance1 := keepIfPresent ((t.getColD "TRB.primary.readCount").getD t.topIdx none)
    cdr3nt1 := keepIfPresent ((t.getColD "TRB.primary.nSeqCDR3").getD t.topIdx none)
    cdr3aa1 := keepIfPresent ((t.getColD "TRB.primary.aaSeqCDR3").getD t.topIdx none)
    vGene1 := keepIfPresent ((t.getColD "TRB.primary.bestVHit").getD t.topIdx none)
    dGene1 := keepIfPresent ((t.getColD "TRB.primary.bestDHit").getD t.topIdx none)
    jGene1 := keepIfPresent ((t.getColD "TRB.primary.bestJHit").getD t.topIdx none) }

/-- The two per-file skip checks of the loop body (empty table, required
columns), as one predicate. -/
def passChecks (t : Table) : Bool := !t.isEmpty && requiredColumns.all t.hasCol

/-- Whether a directory entry contributes an output row: its table parsed and
passed both checks. -/
def entryPasses (e : Entry) : Bool :=
  match e.2 with
  | some t => passChecks t
  | none => false

/-- Cells allowed in a numeric read-count column: a number or missing. -/
def isNumCell : Cell → Bool
  | none => true
  | some (.num _) => true
  | some (.str _) => false

/-- Shorthand for a numeric cell. -/
def nC (n : Int) : Cell := some (.num n)

/-- Shorthand for a string cell. -/
def sC (s : String) : Cell := some (.str s)

/-- A two-row table whose rows tie on the ranking value
`TRA.primary.readCount + TRB.primary.readCount` (20 = 10 + 10 = 5 + 15). -/
def tieTable : Table :=
  { header := extractionColumns
    rows := [[nC 10, sC "ntA0", sC "aaA0", sC "V0", sC "D0", sC "J0",
              nC 10, sC "ntB0", sC "aaB0", sC "V0b", sC "D0b", sC "J0b"],
             [nC 5, sC "ntA1", sC "aaA1", sC "V1", sC "D1", sC "J1",
              nC 15, sC "ntB1", sC "aaB1", sC "V1b", sC "D1b", sC "J1b"]] }

/-- A one-row table carrying every output-relevant column (the §8 scenario:
`TRA.primary.readCount = 10`, `TRB.primary.readCount = 5`, `groupReadCount`
summing to 15). -/
def fullTable : Table :=
  { header := "groupReadCount" :: extractionColumns
    rows := [[nC 15, nC 10, sC "ntA", sC "aaA", sC "V", sC "D", sC "J",
              nC 5, sC "ntB", sC "aaB", sC "Vb", sC "Db", sC "Jb"]] }

/-- A one-row table with only the two required columns: it passes both
per-file checks, yet lacks the ten other extraction columns. -/
def truncTable : Table :=
  { header := requiredColumns
    rows := [[nC 7, nC 8]] }

/-- A table with the required columns but zero rows (skipped as empty). -/
def emptyTable : Table :=
  { header := requiredColumns
    rows := [] }

theorem isPrefixOf_self_append (l r : List Char) : l.isPrefixOf (l ++ r) = true := by
  induction l with
  | nil => simp [List.isPrefixOf]
  | cons a as ih => simp [List.isPrefixOf, ih]

theorem removeAllAux_skip (pat : List Char) (k : Nat) (s : List Char) :
    removeAllAux pat k s = removeAllAux pat 0 (s.drop k) := by
  induction s generalizing k with
  | nil => cases k <;> rfl
  | cons c cs ih =>
    cases k with
    | zero => rfl
    | succ k => simpa [removeAllAux] using ih k

theorem removeAllAux_pat_append (p : Char) (ps rest : List Char) :
    removeAllAux (p :: ps) 0 ((p :: ps) ++ rest) = removeAllAux (p :: ps) 0 rest := by
  have h : (p :: ps).isPrefixOf ((p :: ps) ++ rest) = true := isPrefixOf_self_append _ _
  rw [List.cons_append] at h ⊢
  rw [removeAllAux, if_pos h]
  simp only [List.length_cons, Nat.add_sub_cancel]
  rw [removeAllAux_skip, List.drop_left]

theorem removeAllAux_no_occ (pat s : List Char) (h : hasOcc pat s = false) :
    removeAllAux pat 0 s = s := by
  induction s with
  | nil => rfl
  | cons c cs ih =>
    rw [hasOcc] at h
    simp only [Bool.or_eq_false_iff] at h
    rw [removeAllAux, if_neg (by simp [h.1]), ih h.2]

theorem removeAll_no_occ (pat s : List Char) (h : hasOcc pat s = false) :
    removeAll pat s = s := by
  cases pat with
  | nil => rfl
  | cons p ps => exact removeAllAux_no_occ _ _ h

theorem removeAllAux_append_pat_end (p : Char) (ps : List Char) : ∀ mid : List Char,
    (∀ i, i < mid.length → (p :: ps).isPrefixOf ((mid ++ (p :: ps)).drop i) = false) →
    removeAllAux (p :: ps) 0 (mid ++ (p :: ps)) = mid
  | [], _ => by
    have := removeAllAux_pat_append p ps []
    simpa using this
  | m :: mid', h => by
    have h0 : (p :: ps).isPrefixOf ((m :: mid') ++ (p :: ps)) = false := by
      simpa using h 0 (by simp)
    rw [List.cons_append] at h0 ⊢
    rw [removeAllAux, if_neg (by simp [h0])]
    rw [removeAllAux_append_pat_end p ps mid' (fun i hi => by
      simpa using h (i + 1) (by simpa using Nat.succ_lt_succ hi))]

theorem getLast?_cons_ne {α : Type} (a : α) (l : List α) (h : l ≠ []) :
    (a :: l).getLast? = l.getLast? := by
  cases l with
  | nil => exact absurd rfl h
  | cons b l' => exact List.getLast?_cons_cons

theorem orderedInsert_ne_nil (vals : List Cell) (i : Nat) (s : List Nat) :
    List.orderedInsert (rankLe vals) i s ≠ [] := by
  intro hEq
  have hlen := List.orderedInsert_length (rankLe vals) s i
  rw [hEq] at hlen
  simp at hlen

theorem getLast?_orderedInsert_sorted (vals : List Cell) (i : Nat) :
    ∀ (s : List Nat) (j : Nat), List.Sorted (rankLe vals) s → s.getLast? = some j →
      (List.orderedInsert (rankLe vals) i s).getLast? =
        some (if rankAt vals i ≤ rankAt vals j then j else i)
  | [], j, _, hj => by simp at hj
  | [b], j, _, hj => by
    have hb : b = j := by simpa using hj
    cases hb
    by_cases hib : rankLe vals i b
    · rw [List.orderedInsert, if_pos hib]
      have hib' : rankAt vals i ≤ rankAt vals b := hib
      simp [hib']
    · rw [List.orderedInsert, if_neg hib]
      have hib' : ¬ rankAt vals i ≤ rankAt vals b := hib
      simp [List.orderedInsert, hib']
  | b :: b' :: s'', j, hs, hj => by
    have hj' : (b' :: s'').getLast? = some j := by
      rw [← List.getLast?_cons_cons (a := b)]; exact hj
    by_cases hib : rankLe vals i b
    · rw [List.orderedInsert, if_pos hib]
      have hbj : rankLe vals b j :=
        List.rel_of_sorted_cons hs j (List.mem_of_mem_getLast? hj')
      have hij : rankAt vals i ≤ rankAt vals j := le_trans hib hbj
      rw [getLast?_cons_ne i (b :: b' :: s'') (by simp), hj, if_pos hij]
    · rw [List.orderedInsert, if_neg hib]
      rw [getLast?_cons_ne b _ (orderedInsert_ne_nil vals i (b' :: s''))]
      exact getLast?_orderedInsert_sorted vals i (b' :: s'') j hs.of_cons hj'

theorem lastMaxIdx_cons (vals : List Cell) (i : Nat) (is : List Nat) :
    lastMaxIdx vals (i :: is) =
      match lastMaxIdx vals is with
      | none => some i
      | some j => if rankAt vals i ≤ rankAt vals j then some j else some i := rfl

theorem lastMaxIdx_eq_none (vals : List Cell) (l : List Nat)
    (h : lastMaxIdx vals l = none) : l = [] := by
  cases l with
  | nil => rfl
  | cons i is =>
    rw [lastMaxIdx_cons] at h
    cases hm : lastMaxIdx vals is with
    | none => rw [hm] at h; exact Option.noConfusion h
    | some j =>
      rw [hm] at h
      have h' : (if rankAt vals i ≤ rankAt vals j then some j else some i) = none := h
      by_cases hle : rankAt vals i ≤ rankAt vals j
      · rw [if_pos hle] at h'; exact Option.noConfusion h'
      · rw [if_neg hle] at h'; exact Option.noConfusion h'

theorem getLast?_insertionSort_eq_lastMax (vals : List Cell) :
    ∀ l : List Nat, (List.insertionSort (rankLe vals) l).getLast? = lastMaxIdx vals l
  | [] => rfl
  | i :: is => by
    rw [List.insertionSort]
    cases hlast : (List.insertionSort (rankLe vals) is).getLast? with
    | none =>
      have hnil : List.insertionSort (rankLe vals) is = [] :=
        List.getLast?_eq_none_iff.mp hlast
      have hisnil : is = [] := by
        have hperm := List.perm_insertionSort (rankLe vals) is
        rw [hnil] at hperm
        exact List.eq_nil_of_length_eq_zero hperm.length_eq.symm
      subst hisnil
      simp [lastMaxIdx, hnil, List.orderedInsert]
    | some j =>
      have hs := List.sorted_insertionSort (rankLe vals) is
      rw [getLast?_orderedInsert_sorted vals i (List.insertionSort (rankLe vals) is) j hs hlast]
      have hmax : lastMaxIdx vals is = some j := by
        rw [← getLast?_insertionSort_eq_lastMax vals is]; exact hlast
      have hstep : lastMaxIdx vals (i :: is) =
          if rankAt vals i ≤ rankAt vals j then some j else some i := by
        rw [lastMaxIdx_cons, hmax]
      rw [hstep]
      by_cases hle : rankAt vals i ≤ rankAt vals j
      · rw [if_pos hle, if_pos hle]
      · rw [if_neg hle, if_neg hle]

theorem lastMaxIdx_mem (vals : List Cell) :
    ∀ (l : List Nat) (j : Nat), lastMaxIdx vals l = some j → j ∈ l
  | [], j, h => by simp [lastMaxIdx] at h
  | i :: is, j, h => by
    rw [lastMaxIdx_cons] at h
    cases hm : lastMaxIdx vals is with
    | none =>
      rw [hm] at h
      have h' : some i = some j := h
      simp at h'
      simp [h']
    | some j' =>
      rw [hm] at h
      have h' : (if rankAt vals i ≤ rankAt vals j' then some j' else some i) = some j := h
      by_cases hle : rankAt vals i ≤ rankAt vals j'
      · rw [if_pos hle] at h'
        have hjj : j' = j := by simpa using h'
        rw [← hjj]
        exact List.mem_cons_of_mem i (lastMaxIdx_mem vals is j' hm)
      · rw [if_neg hle] at h'
        have hij : i = j := by simpa using h'
        simp [← hij]

theorem lastMaxIdx_isSome (vals : List Cell) :
    ∀ l : List Nat, l ≠ [] → ∃ j, lastMaxIdx vals l = some j
  | [], h => absurd rfl h
  | i :: is, _ => by
    cases hm : lastMaxIdx vals is with
    | none => exact ⟨i, by rw [lastMaxIdx_cons, hm]⟩
    | some j =>
      by_cases hle : rankAt vals i ≤ rankAt vals j
      · refine ⟨j, ?_⟩
        rw [lastMaxIdx_cons, hm]
        show (if rankAt vals i ≤ rankAt vals j then some j else some i) = some j
        rw [if_pos hle]
      · refine ⟨i, ?_⟩
        rw [lastMaxIdx_cons, hm]
        show (if rankAt vals i ≤ rankAt vals j then some j else some i) = some i
        rw [if_neg hle]

theorem lastMaxIdx_max (vals : List Cell) :
    ∀ (l : List Nat) (j : Nat), lastMaxIdx vals l = some j →
      ∀ i ∈ l, rankAt vals i ≤ rankAt vals j
  | [], _, _ => by simp
  | a :: as, j, h => by
    intro i hi
    rw [lastMaxIdx_cons] at h
    cases hm : lastMaxIdx vals as with
    | none =>
      rw [hm] at h
      have h' : some a = some j := h
      have hja : a = j := by simpa using h'
      have hasnil : as = [] := lastMaxIdx_eq_none vals as hm
      subst hja hasnil
      simp at hi
      simp [hi]
    | some j' =>
      rw [hm] at h
      have h' : (if rankAt vals a ≤ rankAt vals j' then some j' else some a) = some j := h
      by_cases hle : rankAt vals a ≤ rankAt vals j'
      · rw [if_pos hle] at h'
        have hjj : j' = j := by simpa using h'
        rw [← hjj]
        rcases List.mem_cons.mp hi with hia | hias
        · rw [hia]; exact hle
        · exact lastMaxIdx_max vals as j' hm i hias
      · rw [if_neg hle] at h'
        have hja : a = j := by simpa using h'
        rw [← hja]
        rcases List.mem_cons.mp hi with hia | hias
        · rw [hia]
        · exact le_trans (lastMaxIdx_max vals as j' hm i hias) (le_of_not_le hle)

theorem mem_definedIdx (vals : List Cell) (i : Nat) :
    i ∈ definedIdx vals ↔ i < vals.length ∧ (vals.getD i none).isSome = true := by
  simp [definedIdx, List.mem_filter, List.mem_range]

theorem mem_missingIdx (vals : List Cell) (i : Nat) :
    i ∈ missingIdx vals ↔ i < vals.length ∧ (vals.getD i none).isNone = true := by
  simp [missingIdx, List.mem_filter, List.mem_range]

theorem definedIdx_pairwise (vals : List Cell) :
    (definedIdx vals).Pairwise (· < ·) :=
  (List.pairwise_lt_range vals.length).filter _

theorem insertionSort_ne_nil (vals : List Cell) (l : List Nat) (h : l ≠ []) :
    List.insertionSort (rankLe vals) l ≠ [] := by
  intro hnil
  apply h
  have hperm := List.perm_insertionSort (rankLe vals) l
  rw [hnil] at hperm
  exact List.eq_nil_of_length_eq_zero hperm.length_eq.symm

theorem topCloneIdx_eq_lastMax (vals : List Cell) (j : Nat)
    (hj : lastMaxIdx vals (definedIdx vals).reverse = some j) :
    topCloneIdx vals = j := by
  unfold topCloneIdx argsortDescNaLast
  rw [List.headD_eq_head?_getD, List.head?_append, List.head?_reverse,
    getLast?_insertionSort_eq_lastMax, hj]
  rfl

theorem topCloneIdx_mem_definedIdx (vals : List Cell)
    (hne : definedIdx vals ≠ []) :
    topCloneIdx vals ∈ definedIdx vals := by
  rcases lastMaxIdx_isSome vals (definedIdx vals).reverse (by simpa using hne)
    with ⟨j, hj⟩
  rw [topCloneIdx_eq_lastMax vals j hj]
  exact List.mem_reverse.mp (lastMaxIdx_mem vals (definedIdx vals).reverse j hj)

theorem processFile_skip_empty (name : String) (t : Table)
    (h : t.isEmpty = true) : processFile name t = .ok none := by
  unfold processFile
  rw [h]
  rfl

theorem processFile_skip_required (name : String) (t : Table)
    (h1 : t.isEmpty = false) (h2 : requiredColumns.all t.hasCol = false) :
    processFile name t = .ok none := by
  unfold processFile
  rw [h1, h2]
  rfl

theorem processFile_eq_extract (name : String) (t : Table)
    (h1 : t.isEmpty = false)
    (h2 : requiredColumns.all t.hasCol = true)
    (h3 : extractionColumns.all t.hasCol = true) :
    processFile name t = .ok (some (extractRecord name t)) := by
  have hc : ∀ c ∈ extractionColumns, t.hasCol c = true := List.all_eq_true.mp h3
  have c1 : t.hasCol "TRA.primary.readCount" = true := hc _ (by simp [extractionColumns])
  have c2 : t.hasCol "TRA.primary.nSeqCDR3" = true := hc _ (by simp [extractionColumns])
  have c3 : t.hasCol "TRA.primary.aaSeqCDR3" = true := hc _ (by simp [extractionColumns])
  have c4 : t.hasCol "TRA.primary.bestVHit" = true := hc _ (by simp [extractionColumns])
  have c5 : t.hasCol "TRA.primary.bestDHit" = true := hc _ (by simp [extractionColumns])
  have c6 : t.hasCol "TRA.primary.bestJHit" = true := hc _ (by simp [extractionColumns])
  have c7 : t.hasCol "TRB.primary.readCount" = true := hc _ (by simp [extractionColumns])
  have c8 : t.hasCol "TRB.primary.nSeqCDR3" = true := hc _ (by simp [extractionColumns])
  have c9 : t.hasCol "TRB.primary.aaSeqCDR3" = true := hc _ (by simp [extractionColumns])
  have c10 : t.hasCol "TRB.primary.bestVHit" = true := hc _ (by simp [extractionColumns])
  have c11 : t.hasCol "TRB.primary.bestDHit" = true := hc _ (by simp [extractionColumns])
  have c12 : t.hasCol "TRB.primary.bestJHit" = true := hc _ (by simp [extractionColumns])
  unfold processFile
  rw [h1, h2]
  simp only [Bool.not_true, Bool.false_eq_true, if_false, Table.getCellE,
    c1, c2, c3, c4, c5, c6, c7, c8, c9, c10, c11, c12, if_true]
  rfl

theorem collectRecords_count : ∀ files : List Entry,
    (∀ n t, (n, some t) ∈ files → passChecks t = true →
      extractionColumns.all t.hasCol = true) →
    ∃ rs, collectRecords files = .ok rs ∧ rs.length = files.countP entryPasses
  | [], _ => ⟨[], rfl, rfl⟩
  | (n, none) :: rest, h => by
    rcases collectRecords_count rest (fun n t hm hp => h n t (List.mem_cons_of_mem _ hm) hp)
      with ⟨rs, hrs, hlen⟩
    refine ⟨rs, ?_, ?_⟩
    · rw [collectRecords, hrs]
    · rw [hlen, List.countP_cons]
      simp [entryPasses]
  | (n, some t) :: rest, h => by
    rcases collectRecords_count rest (fun n t hm hp => h n t (List.mem_cons_of_mem _ hm) hp)
      with ⟨rs, hrs, hlen⟩
    cases hpc : passChecks t with
    | true =>
      have hpc' : (!t.isEmpty && requiredColumns.all t.hasCol) = true := hpc
      have hsplit := Bool.and_eq_true_iff.mp hpc' 
      have h1 : t.isEmpty = false := by
        have := hsplit.1; simp at this; exact this
      have h2 : requiredColumns.all t.hasCol = true := hsplit.2
      have h3 := h n t (List.mem_cons_self _ _) hpc
      refine ⟨extractRecord n t :: rs, ?_, ?_⟩
      · rw [collectRecords, processFile_eq_extract n t h1 h2 h3, hrs]
        rfl
      · rw [List.length_cons, hlen, List.countP_cons]
        simp [entryPasses, hpc]
    | false =>
      have hskip : processFile n t = .ok none := by
        have hpc' : (!t.isEmpty && requiredColumns.all t.hasCol) = false := hpc
        rcases Bool.and_eq_false_iff.mp hpc' with hemp | hreq
        · exact processFile_skip_empty n t (by simpa using hemp)
        · cases hemp : t.isEmpty with
          | true => exact processFile_skip_empty n t hemp
          | false => exact processFile_skip_required n t hemp hreq
      refine ⟨rs, ?_, ?_⟩
      · rw [collectRecords, hskip]
        exact hrs
      · rw [hlen, List.countP_cons]
        simp [entryPasses, hpc]

theorem getD_addCols : ∀ (a b : List Cell) (i : Nat), i < a.length → i < b.length →
    (addCols a b).getD i none = addCell (a.getD i none) (b.getD i none)
  | [], _, i, ha, _ => by simp at ha
  | _ :: _, [], i, _, hb => by simp at hb
  | x :: xs, y :: ys, 0, _, _ => rfl
  | x :: xs, y :: ys, i + 1, ha, hb => by
    have := getD_addCols xs ys i (by simpa using Nat.lt_of_succ_lt_succ ha)
      (by simpa using Nat.lt_of_succ_lt_succ hb)
    simpa [addCols] using this

theorem getD_map_cells : ∀ (rows : List (List Cell)) (k i : Nat), i < rows.length →
    ((rows.map (fun r => r.getD k none)).getD i none) = (rows.getD i []).getD k none
  | [], _, i, h => by simp at h
  | r :: rs, k, 0, _ => rfl
  | r :: rs, k, i + 1, h =>
    getD_map_cells rs k i (by simpa using Nat.lt_of_succ_lt_succ h)

theorem getD_getColD (t : Table) (c : String) (i : Nat) (h : i < t.rows.length) :
    (t.getColD c).getD i none = (t.rows.getD i []).getD (t.header.indexOf c) none :=
  getD_map_cells t.rows (t.header.indexOf c) i h

theorem length_getColD (t : Table) (c : String) : (t.getColD c).length = t.nrows :=
  List.length_map _ _

theorem length_rank (t : Table) : t.rank.length = t.nrows := by
  unfold Table.rank addCols
  rw [List.length_zipWith, length_getColD, length_getColD]
  exact Nat.min_self _

theorem keepIfPresent_eq (c : Cell) : keepIfPresent c = c := by
  cases c <;> rfl

theorem lastMaxIdx_tiebreak_gt (vals : List Cell) :
    ∀ (l : List Nat) (j : Nat), l.Pairwise (· > ·) → lastMaxIdx vals l = some j →
      ∀ i ∈ l, rankAt vals j ≤ rankAt vals i → j ≤ i
  | [], _, _, _ => by simp
  | a :: as, j, hpw, h => by
    intro i hi hri
    rw [lastMaxIdx_cons] at h
    cases hm : lastMaxIdx vals as with
    | none =>
      rw [hm] at h
      have h' : some a = some j := h
      have hja : a = j := by simpa using h'
      have hasnil : as = [] := lastMaxIdx_eq_none vals as hm
      subst hasnil
      rw [← hja]
      have : i = a := by simpa using hi
      rw [this]
    | some j' =>
      rw [hm] at h
      have h' : (if rankAt vals a ≤ rankAt vals j' then some j' else some a) = some j := h
      by_cases hle : rankAt vals a ≤ rankAt vals j'
      · rw [if_pos hle] at h'
        have hjj : j' = j := by simpa using h'
        rcases List.mem_cons.mp hi with hia | hias
        · have haj : a > j' := (List.pairwise_cons.mp hpw).1 j' (lastMaxIdx_mem vals as j' hm)
          rw [hia, ← hjj]
          exact Nat.le_of_lt haj
        · rw [← hjj]
          exact lastMaxIdx_tiebreak_gt vals as j' (List.pairwise_cons.mp hpw).2 hm i hias
            (by rw [hjj]; exact hri)
      · rw [if_neg hle] at h'
        have hja : a = j := by simpa using h'
        rcases List.mem_cons.mp hi with hia | hias
        · rw [hia, ← hja]
        · exfalso
          have h1 : rankAt vals i ≤ rankAt vals j' := lastMaxIdx_max vals as j' hm i hias
          have h2 : rankAt vals j' < rankAt vals a := lt_of_not_le hle
          have h3 : rankAt vals a ≤ rankAt vals i := by rw [hja]; exact hri
          exact absurd (lt_of_le_of_lt (le_trans h3 h1) h2) (lt_irrefl _)

theorem processFile_missing_col (name : String) (t : Table)
    (h1 : t.isEmpty = false) (h2 : requiredColumns.all t.hasCol = true)
    (h3 : extractionColumns.all t.hasCol = false) :
    ∃ c, processFile name t = .error (.keyError c) := by
  have hreq := List.all_eq_true.mp h2
  have r1 : t.hasCol "TRA.primary.readCount" = true := hreq _ (by simp [requiredColumns])
  have r2 : t.hasCol "TRB.primary.readCount" = true := hreq _ (by simp [requiredColumns])
  by_cases e2 : t.hasCol "TRA.primary.nSeqCDR3" = true
  case neg =>
    exact ⟨"TRA.primary.nSeqCDR3",
      by simp [processFile, h1, h2, Table.getCellE, Bind.bind, Except.bind, r1, e2]⟩
  by_cases e3 : t.hasCol "TRA.primary.aaSeqCDR3" = true
  case neg =>
    exact ⟨"TRA.primary.aaSeqCDR3",
      by simp [processFile, h1, h2, Table.getCellE, Bind.bind, Except.bind, r1, e2, e3]⟩
  by_cases e4 : t.hasCol "TRA.primary.bestVHit" = true
  case neg =>
    exact ⟨"TRA.primary.bestVHit",
      by simp [processFile, h1, h2, Table.getCellE, Bind.bind, Except.bind, r1, e2, e3, e4]⟩
  by_cases e5 : t.hasCol "TRA.primary.bestDHit" = true
  case neg =>
    exact ⟨"TRA.primary.bestDHit",
      by simp [processFile, h1, h2, Table.getCellE, Bind.bind, Except.bind, r1, e2, e3, e4,
        e5]⟩
  by_cases e6 : t.hasCol "TRA.primary.bestJHit" = true
  case neg =>
    exact ⟨"TRA.primary.bestJHit",
      by simp [processFile, h1, h2, Table.getCellE, Bind.bind, Except.bind, r1, e2, e3, e4,
        e5, e6]⟩
  by_cases f2 : t.hasCol "TRB.primary.nSeqCDR3" = true
  case neg =>
    exact ⟨"TRB.primary.nSeqCDR3",
      by simp [processFile, h1, h2, Table.getCellE, Bind.bind, Except.bind, r1, r2, e2, e3,
        e4, e5, e6, f2]⟩
  by_cases f3 : t.hasCol "TRB.primary.aaSeqCDR3" = true
  case neg =>
    exact ⟨"TRB.primary.aaSeqCDR3",
      by simp [processFile, h1, h2, Table.getCellE, Bind.bind, Except.bind, r1, r2, e2, e3,
        e4, e5, e6, f2, f3]⟩
  by_cases f4 : t.hasCol "TRB.primary.bestVHit" = true
  case neg =>
    exact ⟨"TRB.primary.bestVHit",
      by simp [processFile, h1, h2, Table.getCellE, Bind.bind, Except.bind, r1, r2, e2, e3,
        e4, e5, e6, f2, f3, f4]⟩
  by_cases f5 : t.hasCol "TRB.primary.bestDHit" = true
  case neg =>
    exact ⟨"TRB.primary.bestDHit",
      by simp [processFile, h1, h2, Table.getCellE, Bind.bind, Except.bind, r1, r2, e2, e3,
        e4, e5, e6, f2, f3, f4, f5]⟩
  by_cases f6 : t.hasCol "TRB.primary.bestJHit" = true
  case neg =>
    exact ⟨"TRB.primary.bestJHit",
      by simp [processFile, h1, h2, Table.getCellE, Bind.bind, Except.bind, r1, r2, e2, e3,
        e4, e5, e6, f2, f3, f4, f5, f6]⟩
  exfalso
  rw [show extractionColumns.all t.hasCol =
    (t.hasCol "TRA.primary.readCount" && (t.hasCol "TRA.primary.nSeqCDR3" &&
      (t.hasCol "TRA.primary.aaSeqCDR3" && (t.hasCol "TRA.primary.bestVHit" &&
      (t.hasCol "TRA.primary.bestDHit" && (t.hasCol "TRA.primary.bestJHit" &&
      (t.hasCol "TRB.primary.readCount" && (t.hasCol "TRB.primary.nSeqCDR3" &&
      (t.hasCol "TRB.primary.aaSeqCDR3" && (t.hasCol "TRB.primary.bestVHit" &&
      (t.hasCol "TRB.primary.bestDHit" && (t.hasCol "TRB.primary.bestJHit" &&
      true)))))))))))) from rfl] at h3
  rw [r1, r2, e2, e3, e4, e5, e6, f2, f3, f4, f5, f6] at h3
  simp at h3

theorem processFile_ok_some_inv (name : String) (t : Table) (rec : Record)
    (h : processFile name t = .ok (some rec)) :
    t.isEmpty = false ∧ requiredColumns.all t.hasCol = true ∧
      extractionColumns.all t.hasCol = true ∧ rec = extractRecord name t := by
  by_cases h1 : t.isEmpty = true
  · rw [processFile_skip_empty name t h1] at h
    simp at h
  · have h1' : t.isEmpty = false := by simpa using h1
    by_cases h2 : requiredColumns.all t.hasCol = true
    · by_cases h3 : extractionColumns.all t.hasCol = true
      · rw [processFile_eq_extract name t h1' h2 h3] at h
        have heq : some (extractRecord name t) = some rec := by simpa using h
        exact ⟨h1', h2, h3, by simpa using heq.symm⟩
      · exfalso
        rcases processFile_missing_col name t h1' h2 (by simpa using h3) with ⟨c, hc⟩
        rw [hc] at h
        exact Except.noConfusion h
    · rw [processFile_skip_required name t h1' (by simpa using h2)] at h
      simp at h

theorem removeAll_pat_append (pat rest : List Char) (hp : pat ≠ []) :
    removeAll pat (pat ++ rest) = removeAll pat rest := by
  cases pat with
  | nil => exact absurd rfl hp
  | cons p ps => exact removeAllAux_pat_append p ps rest

theorem removeAll_append_pat_end (pat mid : List Char) (hp : pat ≠ [])
    (h : ∀ i, i < mid.length → pat.isPrefixOf ((mid ++ pat).drop i) = false) :
    removeAll pat (mid ++ pat) = mid := by
  cases pat with
  | nil => exact absurd rfl hp
  | cons p ps => exact removeAllAux_append_pat_end p ps mid h

/-- C3 counterexample: the claim says the sample identifier is the base name
with the fixed `results.` front and `.clone.groups_TRAB.tsv` back stripped and
the rest unchanged.  The discovered base name
`results.Aresults.B.clone.groups_TRAB.tsv` should then give `Aresults.B`, but
`str.replace` removes every occurrence, so the code produces `AB`. -/
theorem claim3_counterexample :
    globMatch "results.Aresults.B.clone.groups_TRAB.tsv" = true ∧
    stripSampleId "results.Aresults.B.clone.groups_TRAB.tsv" = "AB" ∧
    ("AB" : String) ≠ "Aresults.B" :=
  ⟨by decide, by decide, by decide⟩

/-- C3 (amended): the sample identifier is the base name with every occurrence
of `results.` removed and then every occurrence of `.clone.groups_TRAB.tsv`
removed; it equals the bare middle part exactly when the remainder of the name
contains no further occurrence of either pattern. -/
theorem claim3_amended (mid : List Char)
    (h1 : hasOcc preChars (mid ++ sfxChars) = false)
    (h2 : ∀ i, i < mid.length → sfxChars.isPrefixOf ((mid ++ sfxChars).drop i) = false) :
    stripSampleId ⟨preChars ++ (mid ++ sfxChars)⟩ = ⟨mid⟩ := by
  show (⟨removeAll sfxChars (removeAll preChars (preChars ++ (mid ++ sfxChars)))⟩ : String)
    = ⟨mid⟩
  rw [removeAll_pat_append preChars (mid ++ sfxChars) (by decide),
    removeAll_no_occ preChars (mid ++ sfxChars) h1,
    removeAll_append_pat_end sfxChars mid (by decide) h2]

/-- C3 witness: the amended statement evaluated on the well name `A1`. -/
theorem claim3_witness :
    stripSampleId ⟨preChars ++ ("A1".data ++ sfxChars)⟩ = ⟨"A1".data⟩ :=
  claim3_amended "A1".data (by decide) (by decide)

/-- C1: for a table passing both checks, with numeric read-count columns, the
12 extraction columns present, and at least one row with a defined ranking
value, the selected top clone maximizes
`TRA.primary.readCount + TRB.primary.readCount` over the rows with a defined
ranking value, and among tied maxima the row appearing FIRST in the table (the
smallest row index) is selected: the descending sort reverses values and
indices before the stable ascending argsort and reverses the indexer again
after, preserving original tie order.  The output record's `Abundance` and
`Abundance.1` equal the selected row's two read-count cells. -/
theorem claim1_top_clone (name : String) (t : Table)
    (h1 : t.isEmpty = false)
    (h2 : requiredColumns.all t.hasCol = true)
    (h3 : extractionColumns.all t.hasCol = true)
    (hA : (t.getColD "TRA.primary.readCount").all isNumCell = true)
    (hB : (t.getColD "TRB.primary.readCount").all isNumCell = true)
    (hdef : definedIdx t.rank ≠ []) :
    ∃ sel, t.topIdx = sel ∧ sel < t.nrows ∧
      (t.rank.getD sel none).isSome = true ∧
      (∀ i, i < t.nrows → (t.rank.getD i none).isSome = true →
        rankAt t.rank i ≤ rankAt t.rank sel) ∧
      (∀ i, i < t.nrows → (t.rank.getD i none).isSome = true →
        rankAt t.rank sel ≤ rankAt t.rank i → sel ≤ i) ∧
      (∀ i, i < t.nrows → (t.rank.getD i none).isSome = true →
        t.rank.getD i none = some (Val.num
          (cellNum ((t.getColD "TRA.primary.readCount").getD i none) +
            cellNum ((t.getColD "TRB.primary.readCount").getD i none)))) ∧
      processFile name t = .ok (some (extractRecord name t)) ∧
      (extractRecord name t).abundance =
        (t.getColD "TRA.primary.readCount").getD sel none ∧
      (extractRecord name t).abundance1 =
        (t.getColD "TRB.primary.readCount").getD sel none := by
  rcases lastMaxIdx_isSome t.rank (definedIdx t.rank).reverse (by simpa using hdef)
    with ⟨sel, hsel⟩
  have htop : t.topIdx = sel := topCloneIdx_eq_lastMax t.rank sel hsel
  have hmem : sel ∈ definedIdx t.rank :=
    List.mem_reverse.mp (lastMaxIdx_mem _ _ _ hsel)
  have hmem' := (mem_definedIdx _ _).mp hmem
  have hselrows : sel < t.nrows := by
    have := hmem'.1
    rwa [length_rank] at this
  have hpwrev : ((definedIdx t.rank).reverse).Pairwise (· > ·) := by
    rw [List.pairwise_reverse]
    exact definedIdx_pairwise _
  refine ⟨sel, htop, hselrows, hmem'.2, ?_, ?_, ?_,
    processFile_eq_extract name t h1 h2 h3, ?_, ?_⟩
  · intro i hi hsome
    exact lastMaxIdx_max _ _ _ hsel i
      (List.mem_reverse.mpr ((mem_definedIdx _ _).mpr ⟨by rwa [length_rank], hsome⟩))
  · intro i hi hsome hle
    exact lastMaxIdx_tiebreak_gt _ _ _ hpwrev hsel i
      (List.mem_reverse.mpr ((mem_definedIdx _ _).mpr ⟨by rwa [length_rank], hsome⟩)) hle
  · intro i hi hsome
    have hiA : i < (t.getColD "TRA.primary.readCount").length := by
      rw [length_getColD]; exact hi
    have hiB : i < (t.getColD "TRB.primary.readCount").length := by
      rw [length_getColD]; exact hi
    have hrk : t.rank.getD i none =
        addCell ((t.getColD "TRA.primary.readCount").getD i none)
          ((t.getColD "TRB.primary.readCount").getD i none) :=
      getD_addCols _ _ i hiA hiB
    have haN : isNumCell ((t.getColD "TRA.primary.readCount").getD i none) = true := by
      apply List.all_eq_true.mp hA
      rw [List.getD_eq_getElem _ _ hiA]
      exact List.getElem_mem hiA
    have hbN : isNumCell ((t.getColD "TRB.primary.readCount").getD i none) = true := by
      apply List.all_eq_true.mp hB
      rw [List.getD_eq_getElem _ _ hiB]
      exact List.getElem_mem hiB
    rw [hrk] at hsome ⊢
    cases hca : (t.getColD "TRA.primary.readCount").getD i none with
    | none => rw [hca] at hsome; simp [addCell] at hsome
    | some va =>
      cases va with
      | str s => rw [hca] at haN; simp [isNumCell] at haN
      | num x =>
        cases hcb : (t.getColD "TRB.primary.readCount").getD i none with
        | none => rw [hca, hcb] at hsome; simp [addCell] at hsome
        | some vb =>
          cases vb with
          | str s => rw [hcb] at hbN; simp [isNumCell] at hbN
          | num y => rfl
  · simp only [extractRecord, keepIfPresent_eq, htop]
  · simp only [extractRecord, keepIfPresent_eq, htop]

/-- C1 witness: the theorem on `tieTable`, whose two rows tie on ranking value
20; the extra conjuncts check concretely that the FIRST row (index 0, with
`TRA.primary.readCount = 10`) is selected, matching the §8 tie scenario. -/
theorem claim1_witness :
    (∃ sel, tieTable.topIdx = sel ∧ sel < tieTable.nrows ∧
      (tieTable.rank.getD sel none).isSome = true ∧
      (∀ i, i < tieTable.nrows → (tieTable.rank.getD i none).isSome = true →
        rankAt tieTable.rank i ≤ rankAt tieTable.rank sel) ∧
      (∀ i, i < tieTable.nrows → (tieTable.rank.getD i none).isSome = true →
        rankAt tieTable.rank sel ≤ rankAt tieTable.rank i → sel ≤ i) ∧
      (∀ i, i < tieTable.nrows → (tieTable.rank.getD i none).isSome = true →
        tieTable.rank.getD i none = some (Val.num
          (cellNum ((tieTable.getColD "TRA.primary.readCount").getD i none) +
            cellNum ((tieTable.getColD "TRB.primary.readCount").getD i none)))) ∧
      processFile "results.T1.clone.groups_TRAB.tsv" tieTable =
        .ok (some (extractRecord "results.T1.clone.groups_TRAB.tsv" tieTable)) ∧
      (extractRecord "results.T1.clone.groups_TRAB.tsv" tieTable).abundance =
        (tieTable.getColD "TRA.primary.readCount").getD sel none ∧
      (extractRecord "results.T1.clone.groups_TRAB.tsv" tieTable).abundance1 =
        (tieTable.getColD "TRB.primary.readCount").getD sel none) ∧
    tieTable.rank = [some (Val.num 20), some (Val.num 20)] ∧
    tieTable.topIdx = 0 ∧
    (extractRecord "results.T1.clone.groups_TRAB.tsv" tieTable).abundance =
      some (Val.num 10) :=
  ⟨claim1_top_clone "results.T1.clone.groups_TRAB.tsv" tieTable (by decide) (by decide)
      (by decide) (by decide) (by decide) (by decide),
    by decide, by decide, by decide⟩

/-- C2: the per-row ranking value is missing whenever either read-count
operand is missing (missing propagates through the addition, never treated as
zero); the sort order lists every row with a defined ranking value before
every row with a missing one; and when at least one row has a defined ranking
value, the selected top clone's ranking value is defined. -/
theorem claim2_missing_ranking (t : Table)
    (hdef : definedIdx t.rank ≠ []) :
    (∀ a b : Cell, a = none ∨ b = none → addCell a b = none) ∧
    (∀ i, i < t.nrows → t.rank.getD i none =
      addCell ((t.getColD "TRA.primary.readCount").getD i none)
        ((t.getColD "TRB.primary.readCount").getD i none)) ∧
    (∃ xs ys, argsortDescNaLast t.rank = xs ++ ys ∧
      (∀ i ∈ xs, (t.rank.getD i none).isSome = true) ∧
      (∀ j ∈ ys, (t.rank.getD j none).isNone = true)) ∧
    (t.rank.getD t.topIdx none).isSome = true := by
  refine ⟨?_, ?_, ?_, ?_⟩
  · intro a b h
    rcases h with rfl | rfl
    · cases b with
      | none => rfl
      | some v => cases v <;> rfl
    · cases a with
      | none => rfl
      | some v => cases v <;> rfl
  · intro i hi
    exact getD_addCols _ _ i (by rw [length_getColD]; exact hi)
      (by rw [length_getColD]; exact hi)
  · refine ⟨(List.insertionSort (rankLe t.rank) (definedIdx t.rank).reverse).reverse,
      missingIdx t.rank, rfl, ?_, ?_⟩
    · intro i hiMem
      have hiSort : i ∈ List.insertionSort (rankLe t.rank) (definedIdx t.rank).reverse := by
        simpa using hiMem
      have hiDef : i ∈ definedIdx t.rank := by
        have := (List.perm_insertionSort _ _).mem_iff.mp hiSort
        simpa using this
      exact ((mem_definedIdx _ _).mp hiDef).2
    · intro j hj
      exact ((mem_missingIdx _ _).mp hj).2
  · have := topCloneIdx_mem_definedIdx t.rank hdef
    exact ((mem_definedIdx _ _).mp this).2

/-- C2 witness: the theorem evaluated on `tieTable`. -/
theorem claim2_witness :
    (tieTable.rank.getD tieTable.topIdx none).isSome = true :=
  (claim2_missing_ranking tieTable (by decide)).2.2.2

/-- C5: whenever a file produces an output record, each of the 12
chain-specific fields equals the corresponding source cell of the selected top
clone — present cells are copied, missing cells stay missing (never a zero and
never an empty string) — and a missing value serializes as an empty CSV
field. -/
theorem claim5_field_extraction (name : String) (t : Table) (rec : Record)
    (h : processFile name t = .ok (some rec)) :
    rec.abundance = (t.getColD "TRA.primary.readCount").getD t.topIdx none ∧
    rec.cdr3nt = (t.getColD "TRA.primary.nSeqCDR3").getD t.topIdx none ∧
    rec.cdr3aa = (t.getColD "TRA.primary.aaSeqCDR3").getD t.topIdx none ∧
    rec.vGene = (t.getColD "TRA.primary.bestVHit").getD t.topIdx none ∧
    rec.dGene = (t.getColD "TRA.primary.bestDHit").getD t.topIdx none ∧
    rec.jGene = (t.getColD "TRA.primary.bestJHit").getD t.topIdx none ∧
    rec.abundance1 = (t.getColD "TRB.primary.readCount").getD t.topIdx none ∧
    rec.cdr3nt1 = (t.getColD "TRB.primary.nSeqCDR3").getD t.topIdx none ∧
    rec.cdr3aa1 = (t.getColD "TRB.primary.aaSeqCDR3").getD t.topIdx none ∧
    rec.vGene1 = (t.getColD "TRB.primary.bestVHit").getD t.topIdx none ∧
    rec.dGene1 = (t.getColD "TRB.primary.bestDHit").getD t.topIdx none ∧
    rec.jGene1 = (t.getColD "TRB.primary.bestJHit").getD t.topIdx none ∧
    serializeCell none = "" := by
  obtain ⟨h1, h2, h3, hrec⟩ := processFile_ok_some_inv name t rec h
  subst hrec
  simp [extractRecord, keepIfPresent_eq, serializeCell]

/-- C5 witness: the theorem evaluated on `fullTable`. -/
theorem claim5_witness :
    (extractRecord "results.A1.clone.groups_TRAB.tsv" fullTable).abundance =
      (fullTable.getColD "TRA.primary.readCount").getD fullTable.topIdx none :=
  (claim5_field_extraction "results.A1.clone.groups_TRAB.tsv" fullTable
    (extractRecord "results.A1.clone.groups_TRAB.tsv" fullTable) rfl).1

/-- C6: the output record's `Num_Total_Reads` equals the sum of the
`groupReadCount` column when that column exists and is missing otherwise; the
second conjunct states the formula for every table, passing the checks or not,
since the source computes it before those checks. -/
theorem claim6_total_reads (name : String) (t : Table) (rec : Record)
    (h : processFile name t = .ok (some rec)) :
    rec.numTotalReads = t.totalReads ∧
    (∀ t' : Table, t'.totalReads =
      if t'.hasCol "groupReadCount"
      then some (Val.num (colSum (t'.getColD "groupReadCount"))) else none) := by
  obtain ⟨h1, h2, h3, hrec⟩ := processFile_ok_some_inv name t rec h
  subst hrec
  exact ⟨rfl, fun t' => rfl⟩

/-- C6 witness: the theorem on the §8 scenario table, whose `groupReadCount`
column sums to 15. -/
theorem claim6_witness :
    (extractRecord "results.A1.clone.groups_TRAB.tsv" fullTable).numTotalReads =
      fullTable.totalReads ∧
    fullTable.totalReads = some (Val.num 15) :=
  ⟨(claim6_total_reads "results.A1.clone.groups_TRAB.tsv" fullTable
      (extractRecord "results.A1.clone.groups_TRAB.tsv" fullTable) rfl).1,
    by decide⟩

/-- C4 counterexample: both discovered files parse, and both pass the
empty-table and required-column checks (count 2), so the claim predicts an
output table with two rows; but the second file lacks the extraction column
`TRA.primary.nSeqCDR3`, the run aborts with a `KeyError`, and no output table
exists at all. -/
theorem claim4_counterexample :
    ([("results.A1.clone.groups_TRAB.tsv", some fullTable),
      ("results.A2.clone.groups_TRAB.tsv", some truncTable)] : List Entry).countP
        entryPasses = 2 ∧
    (∀ e ∈ ([("results.A1.clone.groups_TRAB.tsv", some fullTable),
      ("results.A2.clone.groups_TRAB.tsv", some truncTable)] : List Entry),
        e.2.isSome = true) ∧
    runOutcome "/data"
      [("results.A1.clone.groups_TRAB.tsv", some fullTable),
       ("results.A2.clone.groups_TRAB.tsv", some truncTable)] =
      .error (.keyError "TRA.primary.nSeqCDR3") ∧
    runCsv "/data"
      [("results.A1.clone.groups_TRAB.tsv", some fullTable),
       ("results.A2.clone.groups_TRAB.tsv", some truncTable)] = none :=
  ⟨by decide, by decide, rfl, rfl⟩

/-- C4 (amended): if every discovered file parses, every file passing the two
checks also carries all 12 extraction columns, and at least one file passes,
then the run succeeds and the output row count equals the number of passing
files, one for one. -/
theorem claim4_amended (dirPath : String) (entries : List Entry)
    ( _hparse : ∀ e ∈ discover entries, e.2.isSome = true)
    (hcols : ∀ n t, (n, some t) ∈ entries → passChecks t = true →
      extractionColumns.all t.hasCol = true)
    (hpos : 1 ≤ (discover entries).countP entryPasses) :
    ∃ rs, runOutcome dirPath entries = .ok rs ∧
      rs.length = (discover entries).countP entryPasses := by
  rcases collectRecords_count (discover entries)
      (fun n t hm hp => hcols n t (List.mem_of_mem_filter hm) hp)
    with ⟨rs, hrs, hlen⟩
  have hne : (discover entries).isEmpty = false := by
    cases hd : discover entries with
    | nil => rw [hd] at hpos; simp at hpos
    | cons e es => rfl
  have hrsne : rs ≠ [] := by
    intro hnil
    rw [hnil] at hlen
    rw [← hlen] at hpos
    simp at hpos
  refine ⟨sortRecords rs, ?_, ?_⟩
  · unfold runOutcome
    simp only [hne, Bool.false_eq_true, if_false]
    rw [hrs]
    cases rs with
    | nil => exact absurd rfl hrsne
    | cons r rs' => rfl
  · unfold sortRecords
    rw [(List.perm_insertionSort wellLe rs).length_eq]
    exact hlen

/-- C4 witness: one passing file and one empty (skipped) file give exactly one
output row. -/
theorem claim4_witness :
    ∃ rs, runOutcome "/data"
        [("results.A1.clone.groups_TRAB.tsv", some fullTable),
         ("results.A2.clone.groups_TRAB.tsv", some emptyTable)] = .ok rs ∧
      rs.length = (discover
        [("results.A1.clone.groups_TRAB.tsv", some fullTable),
         ("results.A2.clone.groups_TRAB.tsv", some emptyTable)]).countP entryPasses :=
  claim4_amended "/data"
    [("results.A1.clone.groups_TRAB.tsv", some fullTable),
     ("results.A2.clone.groups_TRAB.tsv", some emptyTable)]
    (by decide)
    (fun n t hm hp => by
      rcases List.mem_cons.mp hm with hfst | hm'
      · injection hfst with hn ht
        injection ht with ht
        rw [ht]
        decide
      · rcases List.mem_cons.mp hm' with hsnd | hnil
        · injection hsnd with hn ht
          injection ht with ht
          rw [ht] at hp
          exact absurd hp (by decide)
        · exact absurd hnil (by simp))
    (by decide)

/-- C7: any run that writes the output table writes its rows sorted ascending
by `Well` under ordinary string comparison — whatever the discovery order of
the files was — and the serialized CSV starts with the fixed 14-name header
line, independent of which columns existed in any source file. -/
theorem claim7_sorted_fixed_columns (dirPath : String) (entries : List Entry)
    (rs : List Record) (h : runOutcome dirPath entries = .ok rs) :
    rs.Pairwise wellLe ∧
    outputColumns = ["Well", "Num_Total_Reads", "Abundance", "CDR3_nt_sequence",
      "CDR3_aa_sequence", "V_Gene", "D_Gene", "J_Gene", "Abundance.1",
      "CDR3_nt_sequence.1", "CDR3_aa_sequence.1", "V_Gene.1", "D_Gene.1",
      "J_Gene.1"] ∧
    outputColumns.length = 14 ∧
    (∃ rest : String,
      renderCsv rs = String.intercalate "," outputColumns ++ ("\n" ++ rest)) := by
  unfold runOutcome at h
  by_cases hne : (discover entries).isEmpty = true
  · simp only [hne, if_true] at h
    exact absurd h (by simp)
  · have hne' : (discover entries).isEmpty = false := by simpa using hne
    simp only [hne', Bool.false_eq_true, if_false] at h
    cases hcol : collectRecords (discover entries) with
    | error e =>
      rw [hcol] at h
      exact Except.noConfusion h
    | ok rs' =>
      cases rs' with
      | nil =>
        rw [hcol] at h
        exact Except.noConfusion h
      | cons r rs'' =>
        rw [hcol] at h
        have h' : sortRecords (r :: rs'') = rs := by
          have h'' : (Except.ok (sortRecords (r :: rs'')) :
            Except RunError (List Record)) = .ok rs := h
          simpa using h''
        rw [← h']
        exact ⟨List.sorted_insertionSort wellLe _, rfl, rfl, ⟨_, rfl⟩⟩

/-- C7 witness: the theorem on a one-file directory. -/
theorem claim7_witness :
    (sortRecords [extractRecord "results.A1.clone.groups_TRAB.tsv" fullTable]).Pairwise
      wellLe ∧
    outputColumns = ["Well", "Num_Total_Reads", "Abundance", "CDR3_nt_sequence",
      "CDR3_aa_sequence", "V_Gene", "D_Gene", "J_Gene", "Abundance.1",
      "CDR3_nt_sequence.1", "CDR3_aa_sequence.1", "V_Gene.1", "D_Gene.1",
      "J_Gene.1"] ∧
    outputColumns.length = 14 ∧
    (∃ rest : String,
      renderCsv (sortRecords [extractRecord "results.A1.clone.groups_TRAB.tsv" fullTable]) =
        String.intercalate "," outputColumns ++ ("\n" ++ rest)) :=
  claim7_sorted_fixed_columns "/data"
    [("results.A1.clone.groups_TRAB.tsv", some fullTable)] _ rfl

/-- C8: with zero matching files the run stops with the no-files error and
writes no output, whatever the non-matching entries contain; with matching
files but zero produced records it stops with the no-data error and writes no
output; the two messages differ for every directory path, and every error
path carries a non-zero exit status. -/
theorem claim8_fatal_exits (dirPath : String) (entries : List Entry) :
    (discover entries = [] →
      runOutcome dirPath entries = .error (.noFiles (msgNoFiles dirPath)) ∧
      runCsv dirPath entries = none) ∧
    (discover entries ≠ [] → collectRecords (discover entries) = .ok [] →
      runOutcome dirPath entries = .error (.noData msgNoData) ∧
      runCsv dirPath entries = none) ∧
    msgNoFiles dirPath ≠ msgNoData ∧
    (∀ e : RunError, exitCode e ≠ 0) := by
  refine ⟨?_, ?_, ?_, ?_⟩
  · intro hd
    have hout : runOutcome dirPath entries = .error (.noFiles (msgNoFiles dirPath)) := by
      unfold runOutcome
      simp only [hd, List.isEmpty_nil, if_true]
    exact ⟨hout, by unfold runCsv writtenCsv; rw [hout]⟩
  · intro hd hcol
    have hne : (discover entries).isEmpty = false := by
      cases hdd : discover entries with
      | nil => exact absurd hdd hd
      | cons e es => rfl
    have hout : runOutcome dirPath entries = .error (.noData msgNoData) := by
      unfold runOutcome
      simp only [hne, Bool.false_eq_true, if_false]
      rw [hcol]
    exact ⟨hout, by unfold runCsv writtenCsv; rw [hout]⟩
  · intro heq
    have hdata : "No clone.groups_TRAB.tsv files found in ".data ++ dirPath.data =
        msgNoData.data := by
      rw [← String.data_append]
      exact congrArg String.data heq
    have htake := congrArg (fun l => l.take 4) hdata
    simp only at htake
    rw [List.take_append_of_le_length (by decide)] at htake
    exact absurd htake (by decide)
  · intro e
    simp [exitCode]

/-- C8 witness: the no-files branch on a directory holding only a
non-matching file. -/
theorem claim8_witness :
    runOutcome "/data" [("junk.txt", none)] =
      .error (.noFiles (msgNoFiles "/data")) ∧
    runCsv "/data" [("junk.txt", none)] = none :=
  (claim8_fatal_exits "/data" [("junk.txt", none)]).1 (by decide)

/-- C9: the run is a pure function of the directory listing, so two runs on
equal inputs produce identical `mixcr_summary.csv` bytes; and since the
written `mixcr_summary.csv` never matches the discovery pattern, a second run
on the directory as the first run left it (the only change being the summary
file) produces the identical bytes again. -/
theorem claim9_deterministic (dirPath : String) (entries : List Entry)
    (c : Option Table) :
    runCsv dirPath entries = runCsv dirPath entries ∧
    runCsv dirPath (entries ++ [("mixcr_summary.csv", c)]) =
      runCsv dirPath entries := by
  refine ⟨rfl, ?_⟩
  have hfalse : globMatch "mixcr_summary.csv" = false := by decide
  have hdisc : discover (entries ++ [("mixcr_summary.csv", c)]) = discover entries := by
    unfold discover
    rw [List.filter_append]
    simp [List.filter_cons, hfalse]
  unfold runCsv writtenCsv runOutcome
  rw [hdisc]

/-- C10: a directory with one complete file and one file that passes the
parse, non-empty and required-column checks but lacks the extraction column
`TRA.primary.nSeqCDR3`: the first file alone produces a record, yet the whole
run aborts with the uncaught `KeyError` and no output file is written — the
missing extraction column is not a skip-and-continue condition. -/
theorem claim10_uncaught_keyerror :
    passChecks truncTable = true ∧
    processFile "results.B1.clone.groups_TRAB.tsv" fullTable =
      .ok (some (extractRecord "results.B1.clone.groups_TRAB.tsv" fullTable)) ∧
    runOutcome "/data"
      [("results.B1.clone.groups_TRAB.tsv", some fullTable),
       ("results.B2.clone.groups_TRAB.tsv", some truncTable)] =
      .error (.keyError "TRA.primary.nSeqCDR3") ∧
    runCsv "/data"
      [("results.B1.clone.groups_TRAB.tsv", some fullTable),
       ("results.B2.clone.groups_TRAB.tsv", some truncTable)] = none :=
  ⟨by decide, rfl, rfl, rfl⟩

end MixcrConvert
